import Mathlib

/-!
Shallow embedding of `src/client-core/src/wallet/default_wallet_client.rs`
(crate `client-core` of the `chain` repository).

Pure data types (`TxoPointer`, `TxOut`, `Tx`, `TransactionChange`,
`WalletStateMemento`, ...) are translated directly.  External collaborators
(storage-backed services, the tendermint client, base64/JSON codecs, the
obfuscation layer) are abstracted as explicit environment records whose
fields return `Except Error _`, mirroring the `Result<_>` values the Rust
code receives from them.  Code of the repository that lives outside the
provided source file (`Coin` arithmetic, `create_transaction_change`,
the root-hash service, the wallet-state service) is modelled from the
specification, with a doc comment marking each such definition.
-/

/-- Error kinds, from `client_common::ErrorKind` as used in this file. -/
inductive ErrorKind where
  | invalidInput
  | illegalInput
  | notFound
  | insufficientFunds
  | decryptionError
  | storageError
deriving DecidableEq, Repr

/-- An error value: kind plus message, as built by `Error::new(kind, msg)`. -/
structure Error where
  kind : ErrorKind
  message : String
deriving DecidableEq, Repr

/-- Public keys are abstracted as naturals (opaque values in the source). -/
abbrev PublicKey := Nat

/-- Transaction ids (`TxId`, a 32-byte hash in the source) abstracted as naturals. -/
abbrev TxId := Nat

/-- 256-bit hashes (`H256`) abstracted as naturals. -/
abbrev H256 := Nat

/-- `TxoPointer`: `(transaction id, output index)`, from `chain_core::tx::data::input`. -/
structure TxoPointer where
  id : TxId
  index : Nat
deriving DecidableEq, Repr

/-- Transfer addresses: `ExtendedAddr` has the single variant `OrTree(H256)`. -/
inductive ExtendedAddr where
  | orTree (root : H256)
deriving DecidableEq, Repr

/-- Modelled from the spec: `Coin` is a bounded token amount; addition
fails on overflow past the maximum coin value.  The exact bound is owned
by `chain_core` (not in the provided sources); only that it is a fixed
finite bound matters here. -/
def maxCoin : Nat := 10000000000000000000

/-- Modelled from the spec: coin addition, `None` on overflow. -/
def coinAdd (a b : Nat) : Option Nat :=
  if a + b ≤ maxCoin then some (a + b) else none

/-- A transaction output: the receiving address and its value. -/
structure TxOut where
  address : ExtendedAddr
  value : Nat
deriving DecidableEq, Repr

/-- A transfer transaction (`Tx`): inputs, outputs, and its id.  The id is
a hash of the content in the source; it is carried as a field here. -/
structure Tx where
  inputs : List TxoPointer
  outputs : List TxOut
  id : TxId
deriving DecidableEq, Repr

/-- Net balance effect of a reconciled transaction (`BalanceChange`). -/
inductive BalanceChange where
  | incoming (value : Nat)
  | outgoing (value : Nat)
  | noChange
deriving DecidableEq, Repr

/-- Immutable record of a reconciled transaction (`TransactionChange`). -/
structure TransactionChange where
  transaction_id : TxId
  outputs : List TxOut
  balance_change : BalanceChange
  block_height : Nat
  block_time : Nat
deriving DecidableEq, Repr

/-- A pending outgoing transaction (fields irrelevant to the claims). -/
structure TransactionPending where
  block_height : Nat
deriving DecidableEq, Repr

/-- The wallet's durable state: unspent map, history, pending map.
Maps are association lists (first binding wins). -/
structure WalletState where
  unspent : List (TxoPointer × TxOut)
  history : List TransactionChange
  pending : List (TxId × TransactionPending)
deriving DecidableEq, Repr

/-- One staged mutation of a `WalletStateMemento`. -/
inductive MementoOp where
  | addUnspentTransaction (pointer : TxoPointer) (output : TxOut)
  | addTransactionChange (change : TransactionChange)
  | addPendingTransaction (id : TxId) (pending : TransactionPending)
deriving DecidableEq, Repr

/-- `WalletStateMemento`: an ordered list of staged mutations. -/
abbrev WalletStateMemento := List MementoOp

/-- The wallet record: what `import_transaction` reads from it is the set
of transfer addresses (`wallet.transfer_addresses()`). -/
structure Wallet where
  transfer_addresses : List ExtendedAddr
deriving DecidableEq, Repr

/-- Association-list lookup for the unspent map. -/
def lookupUnspent (unspent : List (TxoPointer × TxOut)) (ptr : TxoPointer) : Option TxOut :=
  match unspent with
  | [] => none
  | (p, o) :: rest => if p = ptr then some o else lookupUnspent rest ptr

/-- Modelled from the spec: `create_transaction_change`
(`crate::wallet::syncer_logic`, not in the provided sources) classifies a
confirmed transaction against the wallet's addresses and known unspent
outputs, producing a `TransactionChange` whose outputs are the
transaction's outputs and whose id is the transaction's id. -/
def create_transaction_change (wallet : Wallet) (wallet_state : WalletState)
    (transaction : Tx) (block_height : Nat) (block_time : Nat) : TransactionChange :=
  let incomingValue :=
    (transaction.outputs.filter
      (fun o => wallet.transfer_addresses.contains o.address)).foldl
      (fun acc o => acc + o.value) 0
  let outgoingValue :=
    transaction.inputs.foldl
      (fun acc i =>
        match lookupUnspent wallet_state.unspent i with
        | some o => acc + o.value
        | none => acc) 0
  { transaction_id := transaction.id
    outputs := transaction.outputs
    balance_change :=
      if incomingValue > outgoingValue then .incoming (incomingValue - outgoingValue)
      else if outgoingValue > incomingValue then .outgoing (outgoingValue - incomingValue)
      else .noChange
    block_height := block_height
    block_time := block_time }

/-- The output-staging loop of `import_transaction` (lines 842-861): walks
`transaction_change.outputs.iter().zip(spent_flag).enumerate()`, staging
`add_unspent_transaction` and accumulating the value for each output that
belongs to the wallet and is unspent. -/
def importLoop (addrs : List ExtendedAddr) (txid : TxId) :
    List (TxOut × Bool) → Nat → Nat → WalletStateMemento →
    Except Error (WalletStateMemento × Nat)
  | [], _, value, memento => .ok (memento, value)
  | (output, spent) :: rest, i, value, memento =>
    if addrs.contains output.address && !spent then
      match coinAdd value output.value with
      | none => .error ⟨.invalidInput, "invalid coin in outputs of transaction"⟩
      | some value2 =>
        importLoop addrs txid rest (i + 1) value2
          (memento ++ [.addUnspentTransaction ⟨txid, i⟩ output])
    else
      importLoop addrs txid rest (i + 1) value memento

/-- `import_transaction` (lines 828-864): builds the transaction change,
stages unspent outputs owned by the wallet, stages the transaction change,
and returns the accumulated imported value.  The mutable `memento`
argument is threaded explicitly. -/
def import_transaction (wallet : Wallet) (wallet_state : WalletState)
    (memento : WalletStateMemento) (transaction : Tx)
    (block_height : Nat) (block_time : Nat) (spent_flag : List Bool) :
    Except Error (WalletStateMemento × Nat) :=
  let transaction_change :=
    create_transaction_change wallet wallet_state transaction block_height block_time
  match importLoop wallet.transfer_addresses transaction_change.transaction_id
      (transaction_change.outputs.zip spent_flag) 0 0 memento with
  | .error e => .error e
  | .ok (memento2, value) =>
    .ok (memento2 ++ [.addTransactionChange transaction_change], value)

/-- Modelled from the spec: applying one staged memento operation to the
wallet state (ledger write contract, spec section 4.3). -/
def applyMementoOp (st : WalletState) : MementoOp → WalletState
  | .addUnspentTransaction ptr out => { st with unspent := (ptr, out) :: st.unspent }
  | .addTransactionChange c => { st with history := st.history ++ [c] }
  | .addPendingTransaction id p => { st with pending := (id, p) :: st.pending }

/-- Modelled from the spec: `apply_memento` applies every staged operation
of the memento in order (`WalletStateService`, not in the provided
sources). -/
def apply_memento (st : WalletState) (memento : WalletStateMemento) : WalletState :=
  memento.foldl applyMementoOp st

/-- Transaction info as decoded from the base64/JSON payload
(`client_common::TransactionInfo`: the transaction plus its block height). -/
structure TransactionInfo where
  tx : Tx
  block_height : Nat
deriving DecidableEq, Repr

/-- A block as returned by the tendermint client: its header time and the
enclave transaction ids (`block.enclave_transaction_ids()`). -/
structure Block where
  header_time : Nat
  enclave_transaction_ids : List TxId
deriving DecidableEq, Repr

/-- External collaborators of `import_plain_tx`: base64 decoding, JSON
parsing, the tendermint `meta` query (its byte result read as a bit
vector, here a list of booleans), the block query, and the storage-backed
wallet lookups.  Each field returns what the corresponding fallible Rust
call returns. -/
structure ImportEnv where
  decodeBase64 : String → Option (List Nat)
  parseTransactionInfo : List Nat → Option TransactionInfo
  queryMeta : TxId → Except Error (List Bool)
  blockAt : Nat → Except Error Block
  getWallet : Except Error Wallet
  getWalletState : Except Error WalletState

/-- Helper for the spent-flag construction: reads `count` bits of the
bitmap starting at index `start`, failing on the first missing bit. -/
def computeSpentFlagsAux (bit_flag : List Bool) (start count : Nat) :
    Except Error (List Bool) :=
  match count with
  | 0 => .ok []
  | n + 1 =>
    match bit_flag.get? start with
    | none => .error ⟨.invalidInput, "check failed in enclave"⟩
    | some b =>
      match computeSpentFlagsAux bit_flag (start + 1) n with
      | .error e => .error e
      | .ok rest => .ok (b :: rest)

/-- The spent-flag construction of `import_plain_tx` (lines 568-578): for
every output index, read that bit of the enclave bitmap
(`bit_flag.get(index)`), failing `InvalidInput` ("check failed in
enclave") when the bitmap has no entry for it; the per-index results are
collected into one `Result<Vec<bool>>`. -/
def computeSpentFlags (bit_flag : List Bool) (outputs : List TxOut) :
    Except Error (List Bool) :=
  computeSpentFlagsAux bit_flag 0 outputs.length

/-- `import_plain_tx` (lines 557-606), with the wallet state threaded
explicitly: the pair is (result, wallet state after the call).  The state
changes only through `apply_memento`, which the source calls last.  Step
order follows the source: base64 decode, JSON parse, `meta` query,
spent-flag collection (a `Result` value whose `?` fires only when the
flags are passed to `import_transaction`), block fetch, block-membership
check, wallet and wallet-state loads, `import_transaction` (its error
chained to `InvalidInput "import error"`), then `apply_memento`. -/
def import_plain_tx (env : ImportEnv) (tx_str : String) (st : WalletState) :
    Except Error Nat × WalletState :=
  match env.decodeBase64 tx_str with
  | none => (.error ⟨.decryptionError, "Unable to decrypt transaction"⟩, st)
  | some tx_raw =>
  match env.parseTransactionInfo tx_raw with
  | none => (.error ⟨.decryptionError, "Unable to decrypt transaction"⟩, st)
  | some tx_info =>
  match env.queryMeta tx_info.tx.id with
  | .error e => (.error e, st)
  | .ok bit_flag =>
  let spent_flags := computeSpentFlags bit_flag tx_info.tx.outputs
  match env.blockAt tx_info.block_height with
  | .error e => (.error e, st)
  | .ok block =>
  if tx_info.tx.id ∈ block.enclave_transaction_ids then
    match env.getWallet with
    | .error e => (.error e, st)
    | .ok wallet =>
    match env.getWalletState with
    | .error e => (.error e, st)
    | .ok wallet_state =>
    match spent_flags with
    | .error e => (.error e, st)
    | .ok flags =>
    match import_transaction wallet wallet_state [] tx_info.tx
        tx_info.block_height block.header_time flags with
    | .error _ => (.error ⟨.invalidInput, "import error"⟩, st)
    | .ok (memento, imported_value) =>
      (.ok imported_value, apply_memento st memento)
  else
    (.error ⟨.invalidInput, "block height and transaction not match"⟩, st)

/-- The wallet-existence check done at the top of the read operations:
`self.wallet_service.view_key(name, passphrase)?`.  Abstracted as the
`Result` that call returns for the given name and passphrase. -/
structure ReadEnv where
  viewKey : Except Error PublicKey

/-- Modelled from the spec: `get_transaction_history` of the wallet-state
service returns the history sequence in insertion order, reversed when the
flag is set. -/
def get_transaction_history (st : WalletState) (reversed : Bool) :
    List TransactionChange :=
  if reversed then st.history.reverse else st.history

/-- `history` (lines 429-449): wallet check, then the history iterator
filtered to exclude `NoChange` entries, skipped by `offset` and truncated
to `limit`. -/
def history (env : ReadEnv) (st : WalletState) (offset limit : Nat)
    (reversed : Bool) : Except Error (List TransactionChange) :=
  match env.viewKey with
  | .error e => .error e
  | .ok _ =>
    .ok ((((get_transaction_history st reversed).filter
        (fun change => decide (BalanceChange.noChange ≠ change.balance_change))).drop
        offset).take limit)

/-- Modelled from the spec: `get_output` of the wallet-state service looks
the pointer up in the wallet's unspent map. -/
def get_output (st : WalletState) (input : TxoPointer) : Option TxOut :=
  lookupUnspent st.unspent input

/-- `output` (lines 482-496): wallet check, then the unspent-map lookup,
chained to `InvalidInput` when the pointer has no stored output. -/
def output (env : ReadEnv) (st : WalletState) (input : TxoPointer) :
    Except Error TxOut :=
  match env.viewKey with
  | .error e => .error e
  | .ok _ =>
    match get_output st input with
    | some txOut => .ok txOut
    | none =>
      .error ⟨.invalidInput, "Output details not found for given transaction input"⟩

/-- An inclusion proof (opaque to this file). -/
structure Proof where
  root : H256
deriving DecidableEq, Repr

/-- A Schnorr signature (opaque to this file). -/
abbrev SchnorrSignature := Nat

/-- One input witness: the multi-sig path builds `TxInWitness::TreeSig`. -/
inductive TxInWitness where
  | treeSig (signature : SchnorrSignature) (proof : Proof)
deriving DecidableEq, Repr

/-- The signed transaction the multi-sig path hands to obfuscation. -/
structure SignedTransaction where
  tx : Tx
  witness : List TxInWitness
deriving DecidableEq, Repr

/-- The obfuscated transaction (`TxAux`), opaque to this file. -/
abbrev TxAux := Nat

/-- External collaborators of the multi-sig `transaction` operation:
the wallet service's root-hash lookup, the session service's public-key
list and aggregate signature, the root-hash service's proof generation,
and the transaction builder's obfuscation. -/
structure MultiSigEnv where
  findRootHash : ExtendedAddr → Except Error (Option H256)
  sessionPublicKeys : Except Error (List PublicKey)
  generateProof : H256 → List PublicKey → Except Error Proof
  signature : Except Error SchnorrSignature
  obfuscate : SignedTransaction → Except Error TxAux

/-- `transaction` (lines 743-781): the multi-sig signing entry point.  The
result is wrapped in `Option`: `none` models a Rust panic (the direct
index `unsigned_transaction.inputs[0]` going out of bounds); `some r` is a
normal return with result `r`. -/
def transaction (renv : ReadEnv) (menv : MultiSigEnv) (st : WalletState)
    (unsigned_transaction : Tx) : Option (Except Error TxAux) :=
  if unsigned_transaction.inputs.length ≠ 1 then
    some (.error ⟨.invalidInput,
      "Multi-Sig Signing is only supported for transactions with only one input"⟩)
  else
    match unsigned_transaction.inputs.get? 0 with
    | none => none
    | some input0 =>
      some (do
        let output_to_spend ← output renv st input0
        let root_hash ←
          match ← menv.findRootHash output_to_spend.address with
          | some root_hash => pure root_hash
          | none => throw ⟨.illegalInput,
              "Output address is not owned by current wallet; cannot spend output in given transaction"⟩
        let public_keys ← menv.sessionPublicKeys
        let proof ← menv.generateProof root_hash public_keys
        let signature ← menv.signature
        menv.obfuscate ⟨unsigned_transaction, [.treeSig signature proof]⟩)

/-- A threshold address record as kept by the root-hash service:
root hash, canonical member list, required-signer count. -/
structure ThresholdAddress where
  root_hash : H256
  members : List PublicKey
  threshold : Nat
deriving DecidableEq, Repr

/-- Leaf hash of a member public key (abstract injective encoding). -/
def hashLeaf (pk : PublicKey) : H256 := Nat.pair 0 pk

/-- Internal-node hash combining two child hashes (abstract, domain
separated from leaves). -/
def hashNode (a b : H256) : H256 := Nat.pair 1 (Nat.pair a b)

/-- One level of the Merkle tree: siblings combined pairwise, an odd node
paired with itself. -/
def merkleLevel : List H256 → List H256
  | [] => []
  | [a] => [hashNode a a]
  | a :: b :: rest => hashNode a b :: merkleLevel rest

/-- Fuel-indexed Merkle-root fold (the fuel bounds the number of levels). -/
def merkleRootAux : Nat → List H256 → H256
  | _, [] => 0
  | _, [a] => a
  | 0, _ => 0
  | n + 1, leaves => merkleRootAux n (merkleLevel leaves)

/-- Root of the deterministic Merkle tree over the given leaves. -/
def merkleRoot (leaves : List H256) : H256 := merkleRootAux leaves.length leaves

/-- Sorted insertion, for the canonical member ordering. -/
def insertSorted (x : Nat) : List Nat → List Nat
  | [] => [x]
  | y :: ys => if x ≤ y then x :: y :: ys else y :: insertSorted x ys

/-- Canonical member list: duplicates removed, keys in a fixed sort order. -/
def canonicalKeys (keys : List PublicKey) : List PublicKey :=
  keys.dedup.foldr insertSorted []

/-- Modelled from the spec: `RootHashService::new_root_hash` (the
`AddressEngine.create` contract; the service is not in the provided
sources).  Fails `InvalidInput` if the threshold is zero, exceeds the
member count, or the member set is empty; otherwise builds the
deterministic Merkle root over the canonical member list, records the
threshold address, and returns the root together with the multi-sig
address (`ExtendedAddr::OrTree(root)`).  The service's persistent store
is threaded as `registry`. -/
def new_root_hash (registry : List ThresholdAddress)
    (public_keys : List PublicKey) (_self_public_key : PublicKey) (m : Nat) :
    Except Error (H256 × ExtendedAddr × List ThresholdAddress) :=
  let members := canonicalKeys public_keys
  if m = 0 ∨ members.length < m ∨ members = [] then
    .error ⟨.invalidInput, "invalid threshold for given public keys"⟩
  else
    let root := merkleRoot (members.map hashLeaf)
    .ok (root, .orTree root, registry ++ [⟨root, members, m⟩])

/-- External collaborators of address creation: key generation (HD or
random, returning the new public key) and the storage-backed registration
calls, each returning what the corresponding Rust call returns. -/
structure AddressEnv where
  generateKeypair : Except Error PublicKey
  addKeypair : Except Error Unit
  addPublicKey : Except Error Unit
  addRootHash : Except Error Unit

/-- `new_multisig_transfer_address` (lines 366-389): requires the signer
set to contain the self key, then delegates to the root-hash service and
registers the root hash with the wallet. -/
def new_multisig_transfer_address (env : AddressEnv)
    (registry : List ThresholdAddress) (public_keys : List PublicKey)
    (self_public_key : PublicKey) (m : Nat) :
    Except Error (ExtendedAddr × List ThresholdAddress) :=
  if ¬ public_keys.contains self_public_key then
    .error ⟨.invalidInput, "Signer public keys does not contain self public key"⟩
  else
    match new_root_hash registry public_keys self_public_key m with
    | .error e => .error e
    | .ok (_root_hash, multi_sig_address, registry2) =>
      match env.addRootHash with
      | .error e => .error e
      | .ok _ => .ok (multi_sig_address, registry2)

/-- `new_transfer_address` (lines 311-335): generates a key pair, stores
it, registers the public key, then delegates to
`new_multisig_transfer_address` with that single key and `m = 1`. -/
def new_transfer_address (env : AddressEnv) (registry : List ThresholdAddress) :
    Except Error (ExtendedAddr × List ThresholdAddress) :=
  match env.generateKeypair with
  | .error e => .error e
  | .ok public_key =>
    match env.addKeypair with
    | .error e => .error e
    | .ok _ =>
      match env.addPublicKey with
      | .error e => .error e
      | .ok _ =>
        new_multisig_transfer_address env registry [public_key] public_key 1

/-- `new_watch_transfer_address` (lines 351-364): delegates directly to
`new_multisig_transfer_address` with the watched key and `m = 1`. -/
def new_watch_transfer_address (env : AddressEnv)
    (registry : List ThresholdAddress) (public_key : PublicKey) :
    Except Error (ExtendedAddr × List ThresholdAddress) :=
  new_multisig_transfer_address env registry [public_key] public_key 1

/-- Claim-side characterization (following the claim's words): the
`(pointer, output)` pairs for exactly those outputs whose address is a
transfer address of the wallet and whose spent flag is false, with
pointers `(txid, index)` counting from `i`. -/
def selectedUnspent (addrs : List ExtendedAddr) (txid : TxId) :
    List (TxOut × Bool) → Nat → List (TxoPointer × TxOut)
  | [], _ => []
  | (o, s) :: rest, i =>
    if addrs.contains o.address && !s then
      (⟨txid, i⟩, o) :: selectedUnspent addrs txid rest (i + 1)
    else
      selectedUnspent addrs txid rest (i + 1)

/-- Claim-side characterization: the sum of the values of exactly those
outputs whose address is a transfer address of the wallet and whose spent
flag is false. -/
def selectedSum (addrs : List ExtendedAddr) : List (TxOut × Bool) → Nat
  | [] => 0
  | (o, s) :: rest =>
    (if addrs.contains o.address && !s then o.value else 0) + selectedSum addrs rest

/-- The staging loop either overflows (exactly when the selected total
exceeds the coin bound) or appends the selected `add_unspent_transaction`
entries and returns the selected total. -/
lemma importLoop_spec (addrs : List ExtendedAddr) (txid : TxId) :
    ∀ (pairs : List (TxOut × Bool)) (i v₀ : Nat) (m₀ : WalletStateMemento),
    v₀ ≤ maxCoin →
    (maxCoin < v₀ + selectedSum addrs pairs →
       importLoop addrs txid pairs i v₀ m₀ =
         .error ⟨.invalidInput, "invalid coin in outputs of transaction"⟩) ∧
    (v₀ + selectedSum addrs pairs ≤ maxCoin →
       importLoop addrs txid pairs i v₀ m₀ =
         .ok (m₀ ++ (selectedUnspent addrs txid pairs i).map
                (fun e => .addUnspentTransaction e.1 e.2),
              v₀ + selectedSum addrs pairs)) := by
  intro pairs
  induction pairs with
  | nil =>
    intro i v₀ m₀ hv
    constructor
    · intro h
      simp [selectedSum] at h
      omega
    · intro _
      simp [importLoop, selectedSum, selectedUnspent]
  | cons p rest ih =>
    intro i v₀ m₀ hv
    obtain ⟨o, s⟩ := p
    cases hc : addrs.contains o.address && !s with
    | false =>
      have hsum : selectedSum addrs ((o, s) :: rest) = selectedSum addrs rest := by
        simp only [selectedSum]
        rw [hc]
        simp
      have hsel : selectedUnspent addrs txid ((o, s) :: rest) i =
          selectedUnspent addrs txid rest (i + 1) := by
        simp only [selectedUnspent]
        rw [hc]
        simp
      have hloop : importLoop addrs txid ((o, s) :: rest) i v₀ m₀ =
          importLoop addrs txid rest (i + 1) v₀ m₀ := by
        simp only [importLoop]
        rw [hc]
        simp
      rw [hsum, hsel, hloop]
      exact ih (i + 1) v₀ m₀ hv
    | true =>
      have hsum : selectedSum addrs ((o, s) :: rest) =
          o.value + selectedSum addrs rest := by
        simp only [selectedSum]
        rw [hc]
        simp
      have hsel : selectedUnspent addrs txid ((o, s) :: rest) i =
          (⟨txid, i⟩, o) :: selectedUnspent addrs txid rest (i + 1) := by
        simp only [selectedUnspent]
        rw [hc]
        simp
      rw [hsum, hsel]
      by_cases hov : v₀ + o.value ≤ maxCoin
      · have hloop : importLoop addrs txid ((o, s) :: rest) i v₀ m₀ =
            importLoop addrs txid rest (i + 1) (v₀ + o.value)
              (m₀ ++ [.addUnspentTransaction ⟨txid, i⟩ o]) := by
          simp only [importLoop]
          rw [hc]
          simp [coinAdd, hov]
        have ihspec :=
          ih (i + 1) (v₀ + o.value) (m₀ ++ [.addUnspentTransaction ⟨txid, i⟩ o]) hov
        constructor
        · intro h
          rw [hloop]
          exact ihspec.1 (by omega)
        · intro h
          rw [hloop, ihspec.2 (by omega)]
          simp [List.append_assoc, Nat.add_assoc]
      · have hloop : importLoop addrs txid ((o, s) :: rest) i v₀ m₀ =
            .error ⟨.invalidInput, "invalid coin in outputs of transaction"⟩ := by
          simp only [importLoop]
          rw [hc]
          simp [coinAdd, hov]
        constructor
        · intro _
          exact hloop
        · intro h
          omega

/-- The transaction change keeps the transaction's id. -/
lemma create_transaction_change_id (w : Wallet) (ws : WalletState) (tx : Tx)
    (bh bt : Nat) :
    (create_transaction_change w ws tx bh bt).transaction_id = tx.id := rfl

/-- The transaction change keeps the transaction's outputs. -/
lemma create_transaction_change_outputs (w : Wallet) (ws : WalletState) (tx : Tx)
    (bh bt : Nat) :
    (create_transaction_change w ws tx bh bt).outputs = tx.outputs := rfl

/-- C1: for every transaction import via `import_transaction` (with one
spent flag per output), the memento receives an `add_unspent_transaction`
entry exactly for the outputs whose address is a transfer address of the
wallet and whose spent flag is false, with pointer
`(transaction_id, output_index)`; the returned imported value is the sum
of exactly those outputs' values; and the accumulation fails
`InvalidInput` exactly when that sum overflows the coin bound. -/
theorem import_transaction_stages_owned_unspent (wallet : Wallet)
    (wallet_state : WalletState) (m₀ : WalletStateMemento) (tx : Tx)
    (block_height block_time : Nat) (spent_flag : List Bool)
    (hlen : spent_flag.length = tx.outputs.length) :
    (maxCoin < selectedSum wallet.transfer_addresses (tx.outputs.zip spent_flag) →
       import_transaction wallet wallet_state m₀ tx block_height block_time spent_flag =
         .error ⟨.invalidInput, "invalid coin in outputs of transaction"⟩) ∧
    (selectedSum wallet.transfer_addresses (tx.outputs.zip spent_flag) ≤ maxCoin →
       import_transaction wallet wallet_state m₀ tx block_height block_time spent_flag =
         .ok (m₀ ++ (selectedUnspent wallet.transfer_addresses tx.id
                  (tx.outputs.zip spent_flag) 0).map
                  (fun e => .addUnspentTransaction e.1 e.2) ++
                [.addTransactionChange (create_transaction_change wallet wallet_state
                  tx block_height block_time)],
              selectedSum wallet.transfer_addresses (tx.outputs.zip spent_flag))) := by
  have hspec := importLoop_spec wallet.transfer_addresses tx.id
    (tx.outputs.zip spent_flag) 0 0 m₀ (Nat.zero_le _)
  simp only [import_transaction, create_transaction_change_id,
    create_transaction_change_outputs]
  constructor
  · intro h
    rw [hspec.1 (by omega)]
  · intro h
    rw [hspec.2 (by omega)]
    simp [List.append_assoc]

/-- Witness for C1 at a concrete import: a wallet owning address
`OrTree 1`, a two-output transaction paying 100 to that address and 50
elsewhere, both outputs unspent. -/
theorem import_transaction_stages_owned_unspent_witness :
    ([false, false] : List Bool).length =
        (Tx.mk [] [⟨.orTree 1, 100⟩, ⟨.orTree 2, 50⟩] 7).outputs.length ∧
    selectedSum [ExtendedAddr.orTree 1]
        ((Tx.mk [] [⟨.orTree 1, 100⟩, ⟨.orTree 2, 50⟩] 7).outputs.zip
          [false, false]) ≤ maxCoin ∧
    import_transaction ⟨[.orTree 1]⟩ ⟨[], [], []⟩ []
        (Tx.mk [] [⟨.orTree 1, 100⟩, ⟨.orTree 2, 50⟩] 7) 10 0 [false, false] =
      .ok ([] ++ (selectedUnspent [ExtendedAddr.orTree 1] 7
              ((Tx.mk [] [⟨.orTree 1, 100⟩, ⟨.orTree 2, 50⟩] 7).outputs.zip
                [false, false]) 0).map
              (fun e => .addUnspentTransaction e.1 e.2) ++
            [.addTransactionChange (create_transaction_change ⟨[.orTree 1]⟩
              ⟨[], [], []⟩ (Tx.mk [] [⟨.orTree 1, 100⟩, ⟨.orTree 2, 50⟩] 7) 10 0)],
          selectedSum [ExtendedAddr.orTree 1]
            ((Tx.mk [] [⟨.orTree 1, 100⟩, ⟨.orTree 2, 50⟩] 7).outputs.zip
              [false, false])) :=
  ⟨by decide, by decide,
    (import_transaction_stages_owned_unspent ⟨[.orTree 1]⟩ ⟨[], [], []⟩ []
      (Tx.mk [] [⟨.orTree 1, 100⟩, ⟨.orTree 2, 50⟩] 7) 10 0 [false, false]
      rfl).2 (by decide)⟩

/-- C2: `import_plain_tx` is atomic.  If the result is an error, the
wallet state is unchanged (no memento was applied); if it succeeds, the
new state is exactly the initial state with the memento of a successful
`import_transaction` applied. -/
theorem import_plain_tx_atomic (env : ImportEnv) (tx_str : String)
    (st : WalletState) :
    (∀ e, (import_plain_tx env tx_str st).1 = .error e →
       (import_plain_tx env tx_str st).2 = st) ∧
    (∀ v, (import_plain_tx env tx_str st).1 = .ok v →
       ∃ (wallet : Wallet) (wallet_state : WalletState)
         (tx_info : TransactionInfo) (block : Block) (flags : List Bool)
         (memento : WalletStateMemento),
         env.getWallet = .ok wallet ∧
         env.getWalletState = .ok wallet_state ∧
         import_transaction wallet wallet_state [] tx_info.tx tx_info.block_height
           block.header_time flags = .ok (memento, v) ∧
         (import_plain_tx env tx_str st).2 = apply_memento st memento) := by
  cases h1 : env.decodeBase64 tx_str with
  | none => simp [import_plain_tx, h1]
  | some raw =>
  cases h2 : env.parseTransactionInfo raw with
  | none => simp [import_plain_tx, h1, h2]
  | some tx_info =>
  cases h3 : env.queryMeta tx_info.tx.id with
  | error e => simp [import_plain_tx, h1, h2, h3]
  | ok bits =>
  cases h4 : env.blockAt tx_info.block_height with
  | error e => simp [import_plain_tx, h1, h2, h3, h4]
  | ok block =>
  by_cases h5 : tx_info.tx.id ∈ block.enclave_transaction_ids
  · cases h6 : env.getWallet with
    | error e => simp [import_plain_tx, h1, h2, h3, h4, h5, h6]
    | ok wallet =>
    cases h7 : env.getWalletState with
    | error e => simp [import_plain_tx, h1, h2, h3, h4, h5, h6, h7]
    | ok wallet_state =>
    cases h8 : computeSpentFlags bits tx_info.tx.outputs with
    | error e => simp [import_plain_tx, h1, h2, h3, h4, h5, h6, h7, h8]
    | ok flags =>
    cases h9 : import_transaction wallet wallet_state [] tx_info.tx
        tx_info.block_height block.header_time flags with
    | error e => simp [import_plain_tx, h1, h2, h3, h4, h5, h6, h7, h8, h9]
    | ok pair =>
      obtain ⟨memento, v⟩ := pair
      constructor
      · intro e he
        simp [import_plain_tx, h1, h2, h3, h4, h5, h6, h7, h8, h9] at he
      · intro v' hv'
        simp only [import_plain_tx, h1, h2, h3, h4, h5, if_true, h6, h7, h8, h9] at hv' ⊢
        simp at hv'
        subst hv'
        exact ⟨wallet, wallet_state, tx_info, block, flags, memento, rfl, rfl, h9, rfl⟩
  · simp [import_plain_tx, h1, h2, h3, h4, h5]

/-- An environment whose decode step fails, for the C2 witness. -/
def failImportEnv : ImportEnv where
  decodeBase64 := fun _ => none
  parseTransactionInfo := fun _ => none
  queryMeta := fun _ => .error ⟨.storageError, "unreachable"⟩
  blockAt := fun _ => .error ⟨.storageError, "unreachable"⟩
  getWallet := .error ⟨.storageError, "unreachable"⟩
  getWalletState := .error ⟨.storageError, "unreachable"⟩

/-- Witness for C2: a failing decode returns an error and leaves the
wallet state unchanged. -/
theorem import_plain_tx_atomic_witness :
    (import_plain_tx failImportEnv "tx" ⟨[], [], []⟩).1 =
        .error ⟨.decryptionError, "Unable to decrypt transaction"⟩ ∧
    (import_plain_tx failImportEnv "tx" ⟨[], [], []⟩).2 = ⟨[], [], []⟩ :=
  ⟨rfl, (import_plain_tx_atomic failImportEnv "tx" ⟨[], [], []⟩).1 _ rfl⟩

/-- C3: when the decoded transaction's id is not among the enclave
transaction ids of the block fetched at the claimed height,
`import_plain_tx` fails `InvalidInput` and leaves the wallet state
unchanged (no memento applied). -/
theorem import_plain_tx_rejects_nonmember (env : ImportEnv) (tx_str : String)
    (st : WalletState) (raw : List Nat) (tx_info : TransactionInfo)
    (bits : List Bool) (block : Block)
    (h1 : env.decodeBase64 tx_str = some raw)
    (h2 : env.parseTransactionInfo raw = some tx_info)
    (h3 : env.queryMeta tx_info.tx.id = .ok bits)
    (h4 : env.blockAt tx_info.block_height = .ok block)
    (h5 : tx_info.tx.id ∉ block.enclave_transaction_ids) :
    import_plain_tx env tx_str st =
      (.error ⟨.invalidInput, "block height and transaction not match"⟩, st) := by
  simp [import_plain_tx, h1, h2, h3, h4, h5]

/-- An environment whose block does not contain the decoded transaction,
for the C3 witness. -/
def nonMemberBlockEnv : ImportEnv where
  decodeBase64 := fun _ => some [0]
  parseTransactionInfo := fun _ => some ⟨⟨[], [⟨.orTree 1, 100⟩], 7⟩, 10⟩
  queryMeta := fun _ => .ok [false, false, false, false, false, false, false, false]
  blockAt := fun _ => .ok ⟨0, [99]⟩
  getWallet := .ok ⟨[.orTree 1]⟩
  getWalletState := .ok ⟨[], [], []⟩

/-- Witness for C3: the decoded transaction (id 7) is not in the block's
enclave ids ([99]), so the import fails and the state is unchanged. -/
theorem import_plain_tx_rejects_nonmember_witness :
    import_plain_tx nonMemberBlockEnv "tx" ⟨[], [], []⟩ =
      (.error ⟨.invalidInput, "block height and transaction not match"⟩,
        ⟨[], [], []⟩) :=
  import_plain_tx_rejects_nonmember nonMemberBlockEnv "tx" ⟨[], [], []⟩
    [0] ⟨⟨[], [⟨.orTree 1, 100⟩], 7⟩, 10⟩
    [false, false, false, false, false, false, false, false] ⟨0, [99]⟩
    rfl rfl rfl rfl (by decide)

/-- Counterexample for C4: a one-output transaction imported with an
empty spent-flag list (lengths differ) is not rejected — the zip
truncates, the owned output is silently dropped, and the import returns
`Ok` with value 0. -/
theorem import_transaction_length_mismatch_counterexample :
    ([] : List Bool).length ≠ (Tx.mk [] [⟨.orTree 1, 100⟩] 7).outputs.length ∧
    import_transaction ⟨[.orTree 1]⟩ ⟨[], [], []⟩ []
        (Tx.mk [] [⟨.orTree 1, 100⟩] 7) 10 0 [] =
      .ok ([.addTransactionChange ⟨7, [⟨.orTree 1, 100⟩], .incoming 100, 10, 0⟩], 0) :=
  ⟨by decide, rfl⟩

/-- The flag reader succeeds with one flag per requested index exactly
when the bitmap covers the range, and fails `InvalidInput` when the range
is nonempty and runs past the bitmap. -/
lemma computeSpentFlagsAux_spec (bit_flag : List Bool) :
    ∀ count start,
      (start + count ≤ bit_flag.length →
        ∃ flags, computeSpentFlagsAux bit_flag start count = .ok flags ∧
          flags.length = count) ∧
      (1 ≤ count → bit_flag.length < start + count →
        computeSpentFlagsAux bit_flag start count =
          .error ⟨.invalidInput, "check failed in enclave"⟩) := by
  intro count
  induction count with
  | zero =>
    intro start
    exact ⟨fun _ => ⟨[], rfl, rfl⟩, fun h _ => absurd h (by omega)⟩
  | succ n ih =>
    intro start
    cases hg : bit_flag[start]? with
    | none =>
      have hlen : bit_flag.length ≤ start := List.getElem?_eq_none_iff.mp hg
      constructor
      · intro h
        omega
      · intro _ _
        simp [computeSpentFlagsAux, hg]
    | some b =>
      have hlt : start < bit_flag.length := by
        rcases List.getElem?_eq_some_iff.mp hg with ⟨h, _⟩
        exact h
      constructor
      · intro h
        obtain ⟨flags, hok, hflen⟩ := (ih (start + 1)).1 (by omega)
        refine ⟨b :: flags, ?_, by simp [hflen]⟩
        simp [computeSpentFlagsAux, hg, hok]
      · intro _ h
        have hn : 1 ≤ n := by omega
        have herr := (ih (start + 1)).2 hn (by omega)
        simp [computeSpentFlagsAux, hg, herr]

/-- Zipping against a list truncated to the left list's length changes
nothing. -/
lemma zip_take_length : ∀ (l₁ : List TxOut) (l₂ : List Bool),
    l₁.zip (l₂.take l₁.length) = l₁.zip l₂ := by
  intro l₁
  induction l₁ with
  | nil => intro l₂; simp
  | cons a l₁ ih =>
    intro l₂
    cases l₂ with
    | nil => simp
    | cons b l₂ => simp [ih l₂]

/-- Amended C4: the code has no explicit length comparison.  Within
`import_plain_tx` the spent flags are built with exactly one entry per
output, failing `InvalidInput` ("check failed in enclave") precisely when
the enclave bitmap has no bit for some output index; `import_transaction`
itself accepts a spent-flag list of any length and silently truncates via
`zip` (flags beyond the outputs, and outputs beyond the flags, are
ignored). -/
theorem import_spent_flags_amended :
    (∀ (bit_flag : List Bool) (outputs : List TxOut),
      if outputs.length ≤ bit_flag.length then
        ∃ flags, computeSpentFlags bit_flag outputs = .ok flags ∧
          flags.length = outputs.length
      else computeSpentFlags bit_flag outputs =
        .error ⟨.invalidInput, "check failed in enclave"⟩) ∧
    (∀ (wallet : Wallet) (wallet_state : WalletState)
       (m₀ : WalletStateMemento) (tx : Tx) (bh bt : Nat)
       (spent_flag : List Bool),
      import_transaction wallet wallet_state m₀ tx bh bt spent_flag =
        import_transaction wallet wallet_state m₀ tx bh bt
          (spent_flag.take tx.outputs.length)) := by
  constructor
  · intro bit_flag outputs
    by_cases h : outputs.length ≤ bit_flag.length
    · simp only [h, if_true]
      exact (computeSpentFlagsAux_spec bit_flag outputs.length 0).1 (by omega)
    · simp only [h, if_false]
      exact (computeSpentFlagsAux_spec bit_flag outputs.length 0).2 (by omega) (by omega)
  · intro wallet wallet_state m₀ tx bh bt spent_flag
    simp only [import_transaction, create_transaction_change_outputs,
      create_transaction_change_id]
    rw [zip_take_length]

/-- C5: the multi-sig `transaction` operation fails `InvalidInput` for
every unsigned transaction whose input list does not have exactly one
input (in particular for more than one input). -/
theorem transaction_rejects_multiple_inputs (renv : ReadEnv)
    (menv : MultiSigEnv) (st : WalletState) (tx : Tx)
    (h : tx.inputs.length ≠ 1) :
    transaction renv menv st tx =
      some (.error ⟨.invalidInput,
        "Multi-Sig Signing is only supported for transactions with only one input"⟩) := by
  simp [transaction, h]

/-- A trivially succeeding multi-sig environment, for witnesses. -/
def sampleMultiSigEnv : MultiSigEnv where
  findRootHash := fun _ => .ok none
  sessionPublicKeys := .ok []
  generateProof := fun _ _ => .ok ⟨0⟩
  signature := .ok 0
  obfuscate := fun _ => .ok 0

/-- Witness for C5: a two-input transaction is rejected. -/
theorem transaction_rejects_multiple_inputs_witness :
    transaction ⟨.ok 0⟩ sampleMultiSigEnv ⟨[], [], []⟩
        (Tx.mk [⟨1, 0⟩, ⟨2, 0⟩] [] 5) =
      some (.error ⟨.invalidInput,
        "Multi-Sig Signing is only supported for transactions with only one input"⟩) :=
  transaction_rejects_multiple_inputs ⟨.ok 0⟩ sampleMultiSigEnv ⟨[], [], []⟩
    (Tx.mk [⟨1, 0⟩, ⟨2, 0⟩] [] 5) (by decide)

/-- C8: the multi-sig `transaction` operation never panics on the direct
index `inputs[0]`: the one-input guard guarantees the access is in
bounds, so the result is never the panic marker `none`. -/
theorem transaction_index_never_panics (renv : ReadEnv) (menv : MultiSigEnv)
    (st : WalletState) (tx : Tx) :
    transaction renv menv st tx ≠ none := by
  cases htx : tx.inputs with
  | nil => simp [transaction, htx]
  | cons a rest =>
    cases rest with
    | nil => simp [transaction, htx]
    | cons b rest2 => simp [transaction, htx]

/-- C6: `history` returns only transaction changes whose balance effect
is not `NoChange`, and returns at most `limit` entries. -/
theorem history_filters_nochange_and_limits (renv : ReadEnv)
    (st : WalletState) (offset limit : Nat) (reversed : Bool)
    (res : List TransactionChange)
    (h : history renv st offset limit reversed = .ok res) :
    (∀ c ∈ res, c.balance_change ≠ .noChange) ∧ res.length ≤ limit := by
  cases hv : renv.viewKey with
  | error e =>
    rw [history, hv] at h
    cases h
  | ok k =>
    rw [history, hv] at h
    injection h with h
    subst h
    constructor
    · intro c hc
      have hc2 := List.mem_of_mem_take hc
      have hc3 := List.mem_of_mem_drop hc2
      have := List.of_mem_filter hc3
      intro hcontra
      rw [hcontra] at this
      simp at this
    · exact List.length_take_le _ _

/-- Witness for C6: a history with one `NoChange` and one `Incoming`
entry, queried with offset 0 and limit 1, returns one entry. -/
theorem history_filters_nochange_and_limits_witness :
    ([(⟨2, [], .incoming 5, 1, 0⟩ : TransactionChange)]).length ≤ 1 :=
  (history_filters_nochange_and_limits ⟨.ok 0⟩
    ⟨[], [⟨1, [], .noChange, 1, 0⟩, ⟨2, [], .incoming 5, 1, 0⟩], []⟩
    0 1 false [⟨2, [], .incoming 5, 1, 0⟩] rfl).2

/-- C7: with the wallet check passing, `output` fails `InvalidInput` for
every pointer absent from the unspent map and returns the stored `TxOut`
for every present pointer. -/
theorem output_lookup_spec (renv : ReadEnv) (st : WalletState)
    (input : TxoPointer) (k : PublicKey) (hk : renv.viewKey = .ok k) :
    (get_output st input = none →
      output renv st input =
        .error ⟨.invalidInput, "Output details not found for given transaction input"⟩) ∧
    (∀ o, get_output st input = some o → output renv st input = .ok o) := by
  constructor
  · intro h
    simp [output, hk, h]
  · intro o h
    simp [output, hk, h]

/-- Witness for C7: pointer `(2,0)` is absent from the unspent map, so
`output` fails `InvalidInput`. -/
theorem output_lookup_spec_witness :
    output ⟨.ok 0⟩ ⟨[(⟨1, 0⟩, ⟨.orTree 3, 9⟩)], [], []⟩ ⟨2, 0⟩ =
      .error ⟨.invalidInput, "Output details not found for given transaction input"⟩ :=
  (output_lookup_spec ⟨.ok 0⟩ ⟨[(⟨1, 0⟩, ⟨.orTree 3, 9⟩)], [], []⟩ ⟨2, 0⟩ 0 rfl).1
    rfl

/-- C10: `offset` and `limit` act after the `NoChange` filter: the
result is the filtered sequence's slice starting at position `offset`
(positions counted among non-`NoChange` entries), of at most `limit`
entries. -/
theorem history_pagination_after_filter (renv : ReadEnv) (st : WalletState)
    (offset limit : Nat) (reversed : Bool) (res : List TransactionChange)
    (h : history renv st offset limit reversed = .ok res) :
    res = (((get_transaction_history st reversed).filter
        (fun c => decide (BalanceChange.noChange ≠ c.balance_change))).drop
        offset).take limit ∧
    (∀ i, res[i]? = if i < limit then
        ((get_transaction_history st reversed).filter
          (fun c => decide (BalanceChange.noChange ≠ c.balance_change)))[offset + i]?
      else none) := by
  cases hv : renv.viewKey with
  | error e =>
    rw [history, hv] at h
    cases h
  | ok k =>
    rw [history, hv] at h
    injection h with h
    subst h
    refine ⟨rfl, ?_⟩
    intro i
    rw [List.getElem?_take, List.getElem?_drop]

/-- The canonical member list of a single key is that key alone. -/
lemma canonicalKeys_singleton (pk : PublicKey) : canonicalKeys [pk] = [pk] := by
  simp [canonicalKeys, insertSorted, List.dedup_cons_of_not_mem]

/-- The root-hash service on a single key with threshold 1: succeeds,
records the 1-of-1 threshold address over exactly that key, and returns
the `OrTree` address of its root. -/
lemma new_root_hash_singleton (registry : List ThresholdAddress)
    (pk : PublicKey) :
    new_root_hash registry [pk] pk 1 =
      .ok (merkleRoot [hashLeaf pk], .orTree (merkleRoot [hashLeaf pk]),
        registry ++ [⟨merkleRoot [hashLeaf pk], [pk], 1⟩]) := by
  simp [new_root_hash, canonicalKeys_singleton]

/-- C9: both `new_transfer_address` and `new_watch_transfer_address`
delegate to `new_multisig_transfer_address` with the single key and
`m = 1`; every address they create is the `OrTree` of the Merkle root
over exactly that one key, and the threshold address recorded for it is
1-of-1 with member set exactly the single key. -/
theorem transfer_addresses_are_1of1 (env : AddressEnv)
    (registry : List ThresholdAddress) (pk : PublicKey) :
    (new_watch_transfer_address env registry pk =
      new_multisig_transfer_address env registry [pk] pk 1) ∧
    (∀ addr registry2,
      new_watch_transfer_address env registry pk = .ok (addr, registry2) →
      addr = .orTree (merkleRoot [hashLeaf pk]) ∧
      registry2 = registry ++ [⟨merkleRoot [hashLeaf pk], [pk], 1⟩]) ∧
    (∀ pk0 addr registry2, env.generateKeypair = .ok pk0 →
      new_transfer_address env registry = .ok (addr, registry2) →
      addr = .orTree (merkleRoot [hashLeaf pk0]) ∧
      registry2 = registry ++ [⟨merkleRoot [hashLeaf pk0], [pk0], 1⟩]) := by
  refine ⟨rfl, ?_, ?_⟩
  · intro addr registry2 h
    cases har : env.addRootHash with
    | error e =>
      simp [new_watch_transfer_address, new_multisig_transfer_address,
        new_root_hash_singleton, har] at h
    | ok u =>
      simp [new_watch_transfer_address, new_multisig_transfer_address,
        new_root_hash_singleton, har] at h
      exact ⟨h.1.symm, h.2.symm⟩
  · intro pk0 addr registry2 hg h
    cases hak : env.addKeypair with
    | error e =>
      simp [new_transfer_address, hg, hak] at h
    | ok u =>
      cases hap : env.addPublicKey with
      | error e =>
        simp [new_transfer_address, hg, hak, hap] at h
      | ok u2 =>
        cases har : env.addRootHash with
        | error e =>
          simp [new_transfer_address, hg, hak, hap,
            new_multisig_transfer_address, new_root_hash_singleton, har] at h
        | ok u3 =>
          simp [new_transfer_address, hg, hak, hap,
            new_multisig_transfer_address, new_root_hash_singleton, har] at h
          exact ⟨h.1.symm, h.2.symm⟩

/-- Witness for C9 at a concrete environment: watching key 5 creates the
1-of-1 address over exactly key 5. -/
theorem transfer_addresses_are_1of1_witness :
    new_watch_transfer_address ⟨.ok 42, .ok (), .ok (), .ok ()⟩ [] 5 =
      .ok (.orTree (merkleRoot [hashLeaf 5]),
        [⟨merkleRoot [hashLeaf 5], [5], 1⟩]) ∧
    (ExtendedAddr.orTree (merkleRoot [hashLeaf 5]) =
        .orTree (merkleRoot [hashLeaf 5]) ∧
      [(⟨merkleRoot [hashLeaf 5], [5], 1⟩ : ThresholdAddress)] =
        [] ++ [⟨merkleRoot [hashLeaf 5], [5], 1⟩]) :=
  ⟨rfl,
    (transfer_addresses_are_1of1 ⟨.ok 42, .ok (), .ok (), .ok ()⟩ [] 5).2.1
      (.orTree (merkleRoot [hashLeaf 5])) [⟨merkleRoot [hashLeaf 5], [5], 1⟩] rfl⟩

/-- Witness for C10: with history [NoChange, Incoming, Outgoing] and
offset 1, the skip counts among the filtered (non-NoChange) entries, so
the result is the Outgoing entry, not the Incoming one. -/
theorem history_pagination_after_filter_witness :
    [(⟨3, [], .outgoing 2, 1, 0⟩ : TransactionChange)] =
      (((get_transaction_history
          ⟨[], [⟨1, [], .noChange, 1, 0⟩, ⟨2, [], .incoming 5, 1, 0⟩,
            ⟨3, [], .outgoing 2, 1, 0⟩], []⟩ false).filter
          (fun c => decide (BalanceChange.noChange ≠ c.balance_change))).drop
          1).take 4 :=
  (history_pagination_after_filter ⟨.ok 0⟩
    ⟨[], [⟨1, [], .noChange, 1, 0⟩, ⟨2, [], .incoming 5, 1, 0⟩,
      ⟨3, [], .outgoing 2, 1, 0⟩], []⟩
    1 4 false [⟨3, [], .outgoing 2, 1, 0⟩] rfl).1
